import Mathlib

/-!
Formal model of the `backtest` repository core, verified against its
specification.

The development embeds, over exact rational arithmetic (`ℚ` in place of
Python floats), the three core components of the repository:

* the KDJ indicator (`src/indicator/kdj.py`: class `KDJ` with a pluggable
  smoother, and class `KDJPandas` built on pandas `rolling` / `ewm`);
* the screening engine (`src/run/shaofu_pick.py`: `StockPicker`
  with `process_stock_file`, `pick_stocks`, `save_results`);
* the per-symbol strategy state machine
  (`src/run/shaofu_single_backtest.py`: `TestStrategy.next` and
  `TestStrategy.notify_order` on top of the backtrader driver).

Library calls of the source (pandas `rolling(w).max/min`,
`ewm(..., adjust=False).mean`, `sort_values`) are embedded by their
documented semantics.  Python `float` arithmetic is modelled by `ℚ`;
`round(x, 3)` is modelled by rounding to the nearest thousandth
(half up; the source rounds half to even on binary doubles, which agrees
everywhere except exact half-thousandth ties, never exercised here).
-/

/-- Truncating division toward zero on a rational, the semantics of the
Python builtin `int()` applied to a float quotient. -/
def pyInt (q : ℚ) : ℤ := q.num.tdiv q.den

/-- Floor of a rational computed on its numerator and denominator. -/
def ratFloor (q : ℚ) : ℤ := Int.fdiv q.num q.den

/-- Python `round(x, 3)`: round to the nearest thousandth. -/
def round3 (q : ℚ) : ℚ := (ratFloor (q * 1000 + 1/2) : ℚ) / 1000

lemma ratFloor_eq_floor (q : ℚ) : ratFloor q = ⌊q⌋ := by
  rw [ratFloor, Int.fdiv_eq_ediv _ (by positivity),
    ← Rat.floor_intCast_div_natCast q.num q.den, Rat.num_div_den]

lemma pyInt_eq_floor_of_nonneg (q : ℚ) (h : 0 ≤ q) : pyInt q = ⌊q⌋ := by
  rw [pyInt, Int.tdiv_eq_ediv (Rat.num_nonneg.mpr h) (by positivity),
    ← Rat.floor_intCast_div_natCast q.num q.den, Rat.num_div_den]

/-- Maximum of a list of rationals (`0` on the empty list, which never
occurs: rolling windows passed here are nonempty). -/
def listMax : List ℚ → ℚ
  | [] => 0
  | x :: xs => xs.foldl max x

/-- Minimum of a list of rationals (`0` on the empty list). -/
def listMin : List ℚ → ℚ
  | [] => 0
  | x :: xs => xs.foldl min x

lemma le_foldl_max (l : List ℚ) (b : ℚ) : b ≤ l.foldl max b := by
  induction l generalizing b with
  | nil => exact le_refl b
  | cons x xs ih => exact le_trans (le_max_left b x) (ih (max b x))

lemma mem_le_foldl_max (l : List ℚ) (b a : ℚ) (ha : a ∈ l) :
    a ≤ l.foldl max b := by
  induction l generalizing b with
  | nil => cases ha
  | cons x xs ih =>
    rcases List.mem_cons.mp ha with h | h
    · subst h
      exact le_trans (le_max_right b a) (le_foldl_max xs (max b a))
    · exact ih (max b x) h

lemma foldl_max_mem (l : List ℚ) (b : ℚ) :
    l.foldl max b = b ∨ l.foldl max b ∈ l := by
  induction l generalizing b with
  | nil => exact Or.inl rfl
  | cons x xs ih =>
    rcases ih (max b x) with h | h
    · rcases max_choice b x with hb | hx
      · exact Or.inl (by rw [List.foldl_cons, h, hb])
      · exact Or.inr (by rw [List.foldl_cons, h, hx]; exact List.mem_cons_self x xs)
    · exact Or.inr (List.mem_cons_of_mem x h)

lemma foldl_min_le (l : List ℚ) (b : ℚ) : l.foldl min b ≤ b := by
  induction l generalizing b with
  | nil => exact le_refl b
  | cons x xs ih => exact le_trans (ih (min b x)) (min_le_left b x)

lemma foldl_min_le_mem (l : List ℚ) (b a : ℚ) (ha : a ∈ l) :
    l.foldl min b ≤ a := by
  induction l generalizing b with
  | nil => cases ha
  | cons x xs ih =>
    rcases List.mem_cons.mp ha with h | h
    · subst h
      exact le_trans (foldl_min_le xs (min b a)) (min_le_right b a)
    · exact ih (min b x) h

lemma foldl_min_mem (l : List ℚ) (b : ℚ) :
    l.foldl min b = b ∨ l.foldl min b ∈ l := by
  induction l generalizing b with
  | nil => exact Or.inl rfl
  | cons x xs ih =>
    rcases ih (min b x) with h | h
    · rcases min_choice b x with hb | hx
      · exact Or.inl (by rw [List.foldl_cons, h, hb])
      · exact Or.inr (by rw [List.foldl_cons, h, hx]; exact List.mem_cons_self x xs)
    · exact Or.inr (List.mem_cons_of_mem x h)

lemma listMax_mem (l : List ℚ) (h : l ≠ []) : listMax l ∈ l := by
  cases l with
  | nil => exact absurd rfl h
  | cons x xs =>
    rcases foldl_max_mem xs x with h1 | h1
    · rw [listMax, h1]; exact List.mem_cons_self x xs
    · exact List.mem_cons_of_mem x (by rw [listMax]; exact h1)

lemma le_listMax (l : List ℚ) (a : ℚ) (ha : a ∈ l) : a ≤ listMax l := by
  cases l with
  | nil => cases ha
  | cons x xs =>
    rcases List.mem_cons.mp ha with h | h
    · subst h; exact le_foldl_max xs a
    · exact mem_le_foldl_max xs x a h

lemma listMin_mem (l : List ℚ) (h : l ≠ []) : listMin l ∈ l := by
  cases l with
  | nil => exact absurd rfl h
  | cons x xs =>
    rcases foldl_min_mem xs x with h1 | h1
    · rw [listMin, h1]; exact List.mem_cons_self x xs
    · exact List.mem_cons_of_mem x (by rw [listMin]; exact h1)

lemma listMin_le (l : List ℚ) (a : ℚ) (ha : a ∈ l) : listMin l ≤ a := by
  cases l with
  | nil => cases ha
  | cons x xs =>
    rcases List.mem_cons.mp ha with h | h
    · subst h; exact foldl_min_le xs a
    · exact foldl_min_le_mem xs x a h

/-! ## Data model

One row of a stock CSV file (`date,close,high,low,open,volume` in the data
files; the strategy feed maps the columns explicitly).  Dates are modelled
by their ordinal position. -/

structure Bar where
  date : ℕ
  op : ℚ
  high : ℚ
  low : ℚ
  close : ℚ
  volume : ℚ
deriving Repr, DecidableEq

/-! ## KDJ indicator (`src/indicator/kdj.py`)

`KDJPandas.calculate` computes, over a data frame `df`:

* `highest = df.high.rolling(window=pk).max()` and
  `lowest = df.low.rolling(window=pk).min()` — defined from index
  `pk - 1` on (pandas `min_periods` defaults to the window length);
* `rsv = 100 * (df.close - lowest) / (highest - lowest)`;
* `k = rsv.ewm(alpha=1/pd, adjust=False).mean()` and
  `d = k.ewm(alpha=1/pd, adjust=False).mean()`;
* `j = 3*k - 2*d`.

Series are embedded as `ℕ → Option ℚ` (index to value, `none` for a
missing value, the model of pandas NaN before warm-up).  The source does
not guard `highest == lowest`; the embedding inherits the total `ℚ`
convention `x / 0 = 0` at such degenerate windows (spec section 9 flags
that case as undefined in the source). -/

/-- The rolling window of the `pk` bars ending at index `i` (pandas
`rolling(window=pk)` at row `i`, for `i + 1 ≥ pk`). -/
def kdjWindow (bars : List Bar) (pk i : ℕ) : List Bar :=
  (bars.take (i + 1)).drop (i + 1 - pk)

/-- `rsv` series of `KDJPandas.calculate`:
`100 * (close - lowest) / (highest - lowest)` over the rolling window,
missing until `pk` bars exist or past the end of the data. -/
def rsvIdx (pk : ℕ) (bars : List Bar) (i : ℕ) : Option ℚ :=
  match bars[i]? with
  | none => none
  | some b =>
    if i + 1 < pk then none
    else
      let win := kdjWindow bars pk i
      let hi := listMax (win.map Bar.high)
      let lo := listMin (win.map Bar.low)
      some (100 * (b.close - lo) / (hi - lo))

/-- Semantics of pandas `ewm(alpha=a, adjust=False).mean()` read at one
index: missing while the input is missing, seeded by the first present
value, then `y[i] = a * x[i] + (1 - a) * y[i-1]`.  (On an input whose
missing values form a prefix — the only shape produced by `rsvIdx` —
this is exactly the pandas non-adjusted recurrence; at an interior
missing value the previous mean is carried forward, as pandas does at
the missing row itself.) -/
def ewmIdx (a : ℚ) (x : ℕ → Option ℚ) : ℕ → Option ℚ
  | 0 => x 0
  | i + 1 =>
    match ewmIdx a x i, x (i + 1) with
    | none, none => none
    | none, some v => some v
    | some p, none => some p
    | some p, some v => some (a * v + (1 - a) * p)

/-- `k` column of `KDJPandas.calculate`. -/
def kIdx (pk pd : ℕ) (bars : List Bar) : ℕ → Option ℚ :=
  ewmIdx (1 / (pd : ℚ)) (rsvIdx pk bars)

/-- `d` column of `KDJPandas.calculate`. -/
def dIdx (pk pd : ℕ) (bars : List Bar) : ℕ → Option ℚ :=
  ewmIdx (1 / (pd : ℚ)) (kIdx pk pd bars)

/-- `j` column of `KDJPandas.calculate`: `3*k - 2*d`, missing where
either factor is missing (NaN arithmetic). -/
def jIdx (pk pd : ℕ) (bars : List Bar) (i : ℕ) : Option ℚ :=
  match kIdx pk pd bars i, dIdx pk pd bars i with
  | some kv, some dv => some (3 * kv - 2 * dv)
  | _, _ => none

/-- The backtrader `KDJ` indicator, generic in its smoother: the class
takes a moving-average line `mv` as a parameter (default the repo's
`ExponentialMovingAverageAdjust`, whose module is not part of the
analysed sources).  `k = mv(RSV, pd)`, `d = mv(k, pdslow)`,
`j = 3*k - 2*d` with NaN propagation, exactly the line arithmetic of
`KDJ.__init__` (pk = 9 there). -/
def KDJ_lines (mv : (ℕ → Option ℚ) → (ℕ → Option ℚ)) (bars : List Bar) :
    (ℕ → Option ℚ) × (ℕ → Option ℚ) × (ℕ → Option ℚ) :=
  let rsv := rsvIdx 9 bars
  let k := mv rsv
  let d := mv k
  (k, d, fun i =>
    match k i, d i with
    | some kv, some dv => some (3 * kv - 2 * dv)
    | _, _ => none)

lemma ewmIdx_none (a : ℚ) (x : ℕ → Option ℚ) (i : ℕ)
    (hnone : ∀ l, l ≤ i → x l = none) : ewmIdx a x i = none := by
  induction i with
  | zero => rw [ewmIdx]; exact hnone 0 le_rfl
  | succ m ih =>
    rw [ewmIdx, ih (fun t ht => hnone t (le_trans ht (Nat.le_succ m))),
      hnone (m + 1) le_rfl]

lemma ewmIdx_seed (a : ℚ) (x : ℕ → Option ℚ) (i : ℕ) (v : ℚ)
    (hnone : ∀ l, l < i → x l = none) (hv : x i = some v) :
    ewmIdx a x i = some v := by
  cases i with
  | zero => rw [ewmIdx, hv]
  | succ m =>
    rw [ewmIdx, ewmIdx_none a x m (fun t ht => hnone t (Nat.lt_succ_of_le ht)), hv]

lemma ewmIdx_rec (a : ℚ) (x : ℕ → Option ℚ) (i : ℕ) (p v : ℚ)
    (hp : ewmIdx a x i = some p) (hv : x (i + 1) = some v) :
    ewmIdx a x (i + 1) = some (a * v + (1 - a) * p) := by
  rw [ewmIdx, hp, hv]

/-! ## Screening engine (`src/run/shaofu_pick.py`)

`StockPicker.process_stock_file` reads one CSV into a data frame and
builds a `stock_info` dict; `StockPicker.pick_stocks` loops over the
sorted file list, applies the two threshold conditions and collects the
selected dicts; `StockPicker.save_results` sorts the selected rows by
`j_value` and writes them out.  File I/O (reading CSVs, globbing and
sorting the file names, writing results) is external: the embedding takes
the already-sorted universe as a list of `StockFile` values. -/

/-- One stock data file: symbol (from the file name) and its rows. -/
structure StockFile where
  symbol : String
  rows : List Bar
deriving Repr, DecidableEq

/-- The `stock_info` dict built by `process_stock_file` (the `file_path`
entry, pure I/O bookkeeping, is dropped). -/
structure StockInfo where
  symbol : String
  latest_date : ℕ
  latest_close : ℚ
  turnover_mv5 : ℚ
  k_value : ℚ
  d_value : ℚ
  j_value : ℚ
  data_points : ℕ
  j_less_than_zero : Bool
deriving Repr, DecidableEq

/-- Last value of `volumes.ewm(span=5, adjust=False).mean()`:
`alpha = 2/(5+1) = 1/3`, seeded at the first row (volumes carry no
missing values), read at the last row.  `none` only for an empty frame,
which `process_stock_file` has excluded. -/
def ewmSpanLast (a : ℚ) : ℚ → List ℚ → ℚ
  | p, [] => p
  | p, v :: vs => ewmSpanLast a (a * v + (1 - a) * p) vs

/-- `df.volume.ewm(span=5, adjust=False).mean().iloc[-1]`. -/
def turnoverMv5 : List ℚ → Option ℚ
  | [] => none
  | v :: vs => some (ewmSpanLast (1/3) v vs)

/-- `StockPicker.process_stock_file`: `None` when fewer than 20 rows are
available (the logged soft-fail) — the model of the file-level
try/except, whose other failure modes are I/O, is the same `None`.
Otherwise the KDJ columns are computed with the default periods
(pk = 9, pd = 3), the latest values are read off and rounded to three
decimals, and the `stock_info` record is built.  For 20 or more rows the
latest KDJ values and the last row always exist, so the final fallback
branch is unreachable. -/
def process_stock_file (f : StockFile) : Option StockInfo :=
  if f.rows.length < 20 then none
  else
    match kIdx 9 3 f.rows (f.rows.length - 1), dIdx 9 3 f.rows (f.rows.length - 1),
        jIdx 9 3 f.rows (f.rows.length - 1), f.rows.getLast?,
        turnoverMv5 (f.rows.map Bar.volume) with
    | some kv, some dv, some jv, some lastBar, some tv =>
        some { symbol := f.symbol
               latest_date := lastBar.date
               latest_close := lastBar.close
               turnover_mv5 := round3 tv
               k_value := round3 kv
               d_value := round3 dv
               j_value := round3 jv
               data_points := f.rows.length
               j_less_than_zero := decide (jv < 0) }
    | _, _, _, _, _ => none

/-- The two threshold conditions of `StockPicker.pick_stocks` applied to
one `stock_info`.  The subscription `stock_info.symbol[0]` errors on an
empty symbol string, mirrored by the `Except.error`; the initial
`turnover_threshold = 1e6` of the source is dead (both branches of the
if/else overwrite it).  Condition 1: turnover at least `1e8` when the
symbol text begins with a digit, else at least `1e7`.  Condition 2:
`j_value` at most 8 when turnover is at least `1e9`, else at most 0. -/
def pickConds (info : StockInfo) : Except String Bool :=
  match info.symbol.data with
  | [] => Except.error "IndexError: string index out of range"
  | c :: _ =>
      let turnover_threshold : ℚ := if c.isDigit then 100000000 else 10000000
      let condition_1 := decide (turnover_threshold ≤ info.turnover_mv5)
      let j_threshold : ℚ := if (1000000000 : ℚ) ≤ info.turnover_mv5 then 8 else 0
      let condition_2 := decide (info.j_value ≤ j_threshold)
      Except.ok (condition_1 && condition_2)

/-- `StockPicker.pick_stocks` over the sorted universe.  Per file the
source computes `stock_info = process_stock_file(...)` and then evaluates
both conditions on it BEFORE its `is not None` test: a file whose
processing returned `None` therefore raises a `TypeError` at
`stock_info[...]` and aborts the whole loop, modelled by the
`Except.error` short circuit. -/
def pick_stocks : List StockFile → Except String (List StockInfo)
  | [] => Except.ok []
  | f :: fs =>
    match process_stock_file f with
    | none => Except.error "TypeError: NoneType object is not subscriptable"
    | some info =>
      match pickConds info with
      | Except.error e => Except.error e
      | Except.ok cond =>
        match pick_stocks fs with
        | Except.error e => Except.error e
        | Except.ok rest => Except.ok (if cond then info :: rest else rest)

/-- Comparison used by `save_results`: sort key `j_value` only. -/
def jLe (a b : StockInfo) : Prop := a.j_value ≤ b.j_value

instance : DecidableRel jLe :=
  fun a b => inferInstanceAs (Decidable (a.j_value ≤ b.j_value))

instance : IsTotal StockInfo jLe := ⟨fun a b => le_total a.j_value b.j_value⟩

instance : IsTrans StockInfo jLe := ⟨fun _ _ _ => le_trans⟩

/-- `StockPicker.save_results`: returns early (no rows written) on an
empty selection, otherwise writes the rows sorted by
`df_results.sort_values(j_value)` — ascending `j_value` and no other
key.  A stable sort models the pandas call (numpy sorts rows this small
by insertion sort, which is stable). -/
def save_results (selected : List StockInfo) : Option (List StockInfo) :=
  if selected = [] then none
  else some (List.insertionSort jLe selected)

/-! ## Strategy state machine (`src/run/shaofu_single_backtest.py`)

`TestStrategy` holds, besides the broker-owned position, the attributes
set in `__init__` and mutated by `next` / `notify_order`:
`self.order` (the pending order, truthy while one is outstanding),
`self.days_above_bbi`, `self.days_below_bbi`, `self.has_above_bbi`,
`self.sell_count`, `self.stoporder` (never assigned a non-None value
anywhere in the class) and `self.stop_price` (first assigned at entry;
unset before, modelled by `none`).  backtrader truthiness of
`self.position` is `position.size != 0`.  Orders are emitted as
intents; fills, position changes and `notify_order` callbacks come from
the external broker. -/

structure StrategyState where
  order : Bool
  days_above_bbi : ℕ
  days_below_bbi : ℕ
  has_above_bbi : Bool
  sell_count : ℕ
  stop_price : Option ℚ
  stoporder : Bool
  position_size : ℚ
deriving Repr, DecidableEq

/-- The strategy state right after `TestStrategy.__init__`, with a flat
broker position. -/
def initState : StrategyState :=
  { order := false
    days_above_bbi := 0
    days_below_bbi := 0
    has_above_bbi := false
    sell_count := 0
    stop_price := none
    stoporder := false
    position_size := 0 }

/-- An order intent emitted by `next`: `self.buy()` (full size from the
sizer), `self.sell(size=n)` or `self.sell()` (whole position). -/
inductive OrderIntent where
  | buy : OrderIntent
  | sellSize : ℤ → OrderIntent
  | sellAll : OrderIntent
deriving Repr, DecidableEq

/-- Python truthiness of `self.stop_price and self.dataclose[0] <
self.stop_price`: an unset/None or zero `stop_price` is falsy. -/
def stopHit (sp : Option ℚ) (close : ℚ) : Bool :=
  match sp with
  | none => false
  | some p => decide (p ≠ 0) && decide (close < p)

/-- `params.stoploss` of `TestStrategy` (3 percent). -/
def stoploss : ℚ := 3 / 100

/-- `TestStrategy.next`, one bar: inputs are the bar close and the
current `bbi` and `j` indicator values (backtrader only calls `next`
after all indicator warm-ups).  Returns the new state and the emitted
order intent, if any.  Mirrors the source line by line: the pending-order
early return; the two counter updates; the entry branch when flat; the
partial-sell / below-trend-sell / stop-loss elif chain when in position,
followed by the source's `if self.position.size == 0` reset block (which
sits inside the branch where the position is nonzero, hence never
fires). -/
def TestStrategy_next (s : StrategyState) (close bbi j : ℚ) :
    StrategyState × Option OrderIntent :=
  if s.order then (s, none)
  else
    let s :=
      { s with days_above_bbi :=
          if s.position_size ≠ 0 ∧ bbi < close then s.days_above_bbi + 1 else 0 }
    let s :=
      { s with days_below_bbi :=
          if s.position_size ≠ 0 ∧ 0 < s.sell_count ∧ close < bbi then
            s.days_below_bbi + 1
          else 0 }
    if s.position_size = 0 then
      if j < 0 then
        ({ s with order := true
                  has_above_bbi := false
                  sell_count := 0
                  days_below_bbi := 0
                  stop_price := some (close * (1 - stoploss)) },
         some OrderIntent.buy)
      else (s, none)
    else
      let (s, intent) :=
        if 2 ≤ s.days_above_bbi ∧ s.sell_count = 0 then
          ({ s with sell_count := s.sell_count + 1, order := true },
           some (OrderIntent.sellSize (pyInt (s.position_size / 2))))
        else if 2 ≤ s.days_below_bbi then
          ({ s with order := true }, some OrderIntent.sellAll)
        else if stopHit s.stop_price close then
          ({ s with order := true }, some OrderIntent.sellAll)
        else (s, none)
      let s :=
        if s.position_size = 0 then
          { s with sell_count := 0
                   has_above_bbi := false
                   days_below_bbi := 0
                   days_above_bbi := 0 }
        else s
      (s, intent)

/-- Order status values passed to `notify_order` by the broker. -/
inductive OrderStatus where
  | Submitted | Accepted | Completed | Canceled | Margin | Rejected
deriving Repr, DecidableEq

/-- `TestStrategy.notify_order` for an order of the given side and
status.  On `Submitted`/`Accepted` it returns untouched; on a completed
sell it would cancel the stop order and clear `stop_price`, but only when
`self.stoporder` is truthy — and `self.stoporder` is never assigned a
non-None value, so that branch is dead; on `Canceled`/`Margin`/`Rejected`
the `order == self.stoporder` comparison of an order against `None` is
false, another dead branch.  Every non-Submitted/Accepted path finishes
with `self.order = None`. -/
def notify_order (s : StrategyState) (isbuy : Bool) (status : OrderStatus) :
    StrategyState :=
  match status with
  | OrderStatus.Submitted => s
  | OrderStatus.Accepted => s
  | OrderStatus.Completed =>
      if isbuy then { s with order := false }
      else
        let s :=
          if s.stoporder then { s with stoporder := false, stop_price := none }
          else s
        { s with order := false }
  | _ => { s with order := false }

/-- Broker action: fill a pending buy of `sz` units at the next bar and
deliver the `Completed` notification (external collaborator of the
strategy). -/
def fillBuy (s : StrategyState) (sz : ℚ) : StrategyState :=
  notify_order { s with position_size := s.position_size + sz } true
    OrderStatus.Completed

/-- Broker action: fill a pending sell of `sz` units and deliver the
`Completed` notification. -/
def fillSell (s : StrategyState) (sz : ℚ) : StrategyState :=
  notify_order { s with position_size := s.position_size - sz } false
    OrderStatus.Completed

/-! ## Claims about the strategy state machine -/

/-- Claim C6: on every bar processed while an order is pending
(`self.order` truthy), `TestStrategy.next` issues no new order of any
kind, regardless of the indicator values of that bar. -/
theorem C6_no_order_while_pending (s : StrategyState) (close bbi j : ℚ)
    (h : s.order = true) : (TestStrategy_next s close bbi j).2 = none := by
  simp [TestStrategy_next, h]

theorem C6_no_order_while_pending_witness :
    ({ initState with order := true } : StrategyState).order = true ∧
      (TestStrategy_next { initState with order := true } 100 50 (-5)).2 = none :=
  ⟨rfl, C6_no_order_while_pending { initState with order := true } 100 50 (-5) rfl⟩

/-- Claim C10: on every bar processed while an order is pending, the
whole per-position state is left unchanged by the bar evaluation — in
particular neither consecutive trend-day counter moves, so such bars do
not count toward the two-consecutive-day confirmations. -/
theorem C10_state_unchanged_while_pending (s : StrategyState) (close bbi j : ℚ)
    (h : s.order = true) : (TestStrategy_next s close bbi j).1 = s := by
  simp [TestStrategy_next, h]

theorem C10_state_unchanged_while_pending_witness :
    ({ initState with order := true, days_above_bbi := 1 } : StrategyState).order
        = true ∧
      (TestStrategy_next { initState with order := true, days_above_bbi := 1 }
          200 100 7).1 =
        { initState with order := true, days_above_bbi := 1 } :=
  ⟨rfl, C10_state_unchanged_while_pending
    { initState with order := true, days_above_bbi := 1 } 200 100 7 rfl⟩

/-- Claim C3: on a bar where the machine is flat with no pending order
and `j < 0`, `TestStrategy.next` issues the buy (full intended size),
sets `stop_price = close * (1 - 0.03)`, resets `sell_count` (the
partial-sell flag) to 0, and leaves both trend-day counters at 0. -/
theorem C3_entry (s : StrategyState) (close bbi j : ℚ)
    (hord : s.order = false) (hpos : s.position_size = 0) (hj : j < 0) :
    TestStrategy_next s close bbi j =
      ({ s with order := true
                days_above_bbi := 0
                days_below_bbi := 0
                has_above_bbi := false
                sell_count := 0
                stop_price := some (close * (1 - 3 / 100)) },
       some OrderIntent.buy) := by
  simp [TestStrategy_next, hord, hpos, hj, stoploss]

theorem C3_entry_witness :
    initState.order = false ∧ initState.position_size = 0 ∧ ((-5 : ℚ) < 0) ∧
      TestStrategy_next initState 100 80 (-5) =
        ({ initState with order := true
                          has_above_bbi := false
                          sell_count := 0
                          stop_price := some (100 * (1 - 3 / 100)) },
         some OrderIntent.buy) :=
  ⟨rfl, rfl, by norm_num, C3_entry initState 100 80 (-5) rfl rfl (by norm_num)⟩

/-- Claim C4: in position with no pending order, once the close has been
above `bbi` on two consecutive evaluated bars (the running counter
reaches 2 on this bar) and no partial sell has occurred yet
(`sell_count = 0`), `TestStrategy.next` sells exactly
`⌊position_size / 2⌋` units and marks the partial sell done
(`sell_count = 1`); and on a bar where the close does not exceed `bbi`
the above-trend counter resets to 0. -/
theorem C4_partial_trim (s : StrategyState) (close bbi j : ℚ)
    (hord : s.order = false) (hpos : 0 < s.position_size) :
    ((bbi < close ∧ s.sell_count = 0 ∧ 1 ≤ s.days_above_bbi) →
        (TestStrategy_next s close bbi j).2 =
            some (OrderIntent.sellSize ⌊s.position_size / 2⌋) ∧
          (TestStrategy_next s close bbi j).1.sell_count = 1) ∧
    (¬ bbi < close → (TestStrategy_next s close bbi j).1.days_above_bbi = 0) := by
  have hne : s.position_size ≠ 0 := ne_of_gt hpos
  constructor
  · rintro ⟨hc, hsc, hd⟩
    have hfloor : pyInt (s.position_size / 2) = ⌊s.position_size / 2⌋ :=
      pyInt_eq_floor_of_nonneg _ (by positivity)
    have h2 : 2 ≤ s.days_above_bbi + 1 := Nat.succ_le_succ hd
    simp [TestStrategy_next, hord, hne, hc, hsc, h2, hfloor]
  · intro hc
    simp only [TestStrategy_next, hord, Bool.false_eq_true, if_false]
    simp only [hc, and_false, if_false, hne, if_neg hne]
    split_ifs <;> simp_all

theorem C4_partial_trim_witness :
    (({ initState with position_size := 101, days_above_bbi := 1 } :
        StrategyState).order = false) ∧
      ((0 : ℚ) < 101) ∧
      (((10 : ℚ) < 12 ∧
          ({ initState with position_size := 101, days_above_bbi := 1 } :
            StrategyState).sell_count = 0 ∧
          1 ≤ ({ initState with position_size := 101, days_above_bbi := 1 } :
            StrategyState).days_above_bbi) →
        (TestStrategy_next
            { initState with position_size := 101, days_above_bbi := 1 }
            12 10 5).2 =
            some (OrderIntent.sellSize
              ⌊({ initState with position_size := 101, days_above_bbi := 1 } :
                StrategyState).position_size / 2⌋) ∧
          (TestStrategy_next
            { initState with position_size := 101, days_above_bbi := 1 }
            12 10 5).1.sell_count = 1) ∧
      (¬ (10 : ℚ) < 12 →
        (TestStrategy_next
          { initState with position_size := 101, days_above_bbi := 1 }
          12 10 5).1.days_above_bbi = 0) :=
  ⟨rfl, by norm_num,
    (C4_partial_trim { initState with position_size := 101, days_above_bbi := 1 }
      12 10 5 rfl (by norm_num)).1,
    (C4_partial_trim { initState with position_size := 101, days_above_bbi := 1 }
      12 10 5 rfl (by norm_num)).2⟩

/-- A complete position round trip driven through the machine: entry at
close 100 (`j = -5`, stop set at 97), buy fill of 100 units, two bars
closing at 110 above `bbi = 105` (partial sell of 50 fires on the
second), sell fill of 50, two bars closing at 98 below `bbi = 99`
(below-trend exit fires on the second), sell fill of the remaining 50.
The broker is the external collaborator; fills and `Completed`
notifications are applied between bars. -/
def flattenTrace : StrategyState :=
  let t1 := TestStrategy_next initState 100 100 (-5)
  let s1 := fillBuy t1.1 100
  let t2 := TestStrategy_next s1 110 105 5
  let t3 := TestStrategy_next t2.1 110 105 5
  let s3 := fillSell t3.1 50
  let t4 := TestStrategy_next s3 98 99 5
  let t5 := TestStrategy_next t4.1 98 99 5
  fillSell t5.1 50

/-- Claim C2 (demonstrating the divergence): after the fill that returns
`position_size` to 0, the machine is flat with no pending order, yet
`sell_count` is still 1 and `stop_price` is still `some 97` — not their
initial values `0` / `none` — and they stay that way until the next
entry bar itself.  The source's reset block sits inside the branch taken
only when the position is nonzero, and the `stop_price = None` reset in
`notify_order` is gated on the never-assigned `self.stoporder`, so
neither ever fires. -/
theorem C2_state_not_reset_on_flatten :
    flattenTrace.position_size = 0 ∧ flattenTrace.order = false ∧
      flattenTrace.sell_count = 1 ∧ flattenTrace.stop_price = some 97 ∧
      flattenTrace.days_below_bbi = 2 := by
  norm_num [flattenTrace, TestStrategy_next, fillBuy, fillSell, notify_order,
    initState, stopHit, stoploss]

/-! ## Claims about the KDJ indicator -/

/-- Claim C7: wherever `k`, `d` and `j` are all defined, the computed `j`
equals `3*k - 2*d` (exactly over `ℚ`, hence within the stated floating
tolerance of `1e-9`), both for the backtrader `KDJ` indicator (with any
smoother plugged in for `mv`) and for the `KDJPandas` implementation. -/
theorem C7_j_identity :
    (∀ (mv : (ℕ → Option ℚ) → (ℕ → Option ℚ)) (bars : List Bar) (i : ℕ)
        (kv dv jv : ℚ),
        (KDJ_lines mv bars).1 i = some kv →
        (KDJ_lines mv bars).2.1 i = some dv →
        (KDJ_lines mv bars).2.2 i = some jv →
        |jv - (3 * kv - 2 * dv)| ≤ 1 / 1000000000) ∧
    (∀ (pk pd : ℕ) (bars : List Bar) (i : ℕ) (kv dv jv : ℚ),
        kIdx pk pd bars i = some kv →
        dIdx pk pd bars i = some dv →
        jIdx pk pd bars i = some jv →
        |jv - (3 * kv - 2 * dv)| ≤ 1 / 1000000000) := by
  constructor
  · intro mv bars i kv dv jv hk hd hj
    simp only [KDJ_lines] at hk hd hj
    rw [hk, hd] at hj
    simp only [Option.some.injEq] at hj
    simp [← hj]
  · intro pk pd bars i kv dv jv hk hd hj
    rw [jIdx, hk, hd] at hj
    simp only [Option.some.injEq] at hj
    simp [← hj]

/-- Ten identical bars used as concrete inputs for the indicator
witnesses: high 2, low 1, close 3/2, so every full window has
`rsv = 100 * (3/2 - 1) / (2 - 1) = 50` and the smoothed lines settle at
50. -/
def wBar : Bar := { date := 0, op := 1, high := 2, low := 1, close := 3/2, volume := 1 }

def wBars : List Bar :=
  [wBar, wBar, wBar, wBar, wBar, wBar, wBar, wBar, wBar, wBar]

lemma wBars_k9 : kIdx 9 3 wBars 9 = some 50 := by
  norm_num [kIdx, ewmIdx, rsvIdx, kdjWindow, wBars, wBar, listMax, listMin]

lemma wBars_d9 : dIdx 9 3 wBars 9 = some 50 := by
  norm_num [dIdx, kIdx, ewmIdx, rsvIdx, kdjWindow, wBars, wBar, listMax, listMin]

lemma wBars_j9 : jIdx 9 3 wBars 9 = some 50 := by
  norm_num [jIdx, wBars_k9, wBars_d9]

lemma wBars_lines_k9 : (KDJ_lines (ewmIdx (1/3)) wBars).1 9 = some 50 := by
  norm_num [KDJ_lines, ewmIdx, rsvIdx, kdjWindow, wBars, wBar, listMax, listMin]

lemma wBars_lines_d9 : (KDJ_lines (ewmIdx (1/3)) wBars).2.1 9 = some 50 := by
  norm_num [KDJ_lines, ewmIdx, rsvIdx, kdjWindow, wBars, wBar, listMax, listMin]

lemma wBars_lines_j9 : (KDJ_lines (ewmIdx (1/3)) wBars).2.2 9 = some 50 := by
  norm_num [KDJ_lines, ewmIdx, rsvIdx, kdjWindow, wBars, wBar, listMax, listMin]

theorem C7_j_identity_witness :
    ((KDJ_lines (ewmIdx (1/3)) wBars).1 9 = some 50 ∧
      (KDJ_lines (ewmIdx (1/3)) wBars).2.1 9 = some 50 ∧
      (KDJ_lines (ewmIdx (1/3)) wBars).2.2 9 = some 50 ∧
      |(50 : ℚ) - (3 * 50 - 2 * 50)| ≤ 1 / 1000000000) ∧
    (kIdx 9 3 wBars 9 = some 50 ∧ dIdx 9 3 wBars 9 = some 50 ∧
      jIdx 9 3 wBars 9 = some 50 ∧
      |(50 : ℚ) - (3 * 50 - 2 * 50)| ≤ 1 / 1000000000) :=
  ⟨⟨wBars_lines_k9, wBars_lines_d9, wBars_lines_j9,
    C7_j_identity.1 (ewmIdx (1/3)) wBars 9 50 50 50 wBars_lines_k9
      wBars_lines_d9 wBars_lines_j9⟩,
   ⟨wBars_k9, wBars_d9, wBars_j9,
    C7_j_identity.2 9 3 wBars 9 50 50 50 wBars_k9 wBars_d9 wBars_j9⟩⟩

/-- Claim C8: for every bar index `i ≥ pk - 1 = 8` inside the data,
`KDJPandas.calculate` computes `rsv[i] = 100 * (close[i] - lowest) /
(highest - lowest)` where `highest`/`lowest` are the maximum high and
minimum low over the rolling 9-bar window ending at `i`; and `k` is the
non-adjusted exponential moving average of `rsv` with `alpha = 1/pd =
1/3`: seeded with the first defined `rsv` value (`k[8] = rsv[8]`) and
evolved by `k[i] = alpha * rsv[i] + (1 - alpha) * k[i-1]` with no
renormalization. -/
theorem C8_rsv_and_k_recurrence (bars : List Bar) (i : ℕ) (b : Bar)
    (hb : bars[i]? = some b) (h8 : 8 ≤ i) :
    (∃ hi lo,
        hi ∈ (kdjWindow bars 9 i).map Bar.high ∧
        (∀ x ∈ (kdjWindow bars 9 i).map Bar.high, x ≤ hi) ∧
        lo ∈ (kdjWindow bars 9 i).map Bar.low ∧
        (∀ x ∈ (kdjWindow bars 9 i).map Bar.low, lo ≤ x) ∧
        rsvIdx 9 bars i = some (100 * (b.close - lo) / (hi - lo))) ∧
    (i = 8 → kIdx 9 3 bars 8 = rsvIdx 9 bars 8) ∧
    (∀ r p, 9 ≤ i → rsvIdx 9 bars i = some r →
        kIdx 9 3 bars (i - 1) = some p →
        kIdx 9 3 bars i = some (1/3 * r + (1 - 1/3) * p)) := by
  have hilt : i < bars.length := (List.getElem?_eq_some.mp hb).1
  have hnot : ¬ (i + 1 < 9) := by omega
  have hwlen : (kdjWindow bars 9 i).length = 9 := by
    rw [kdjWindow, List.length_drop, List.length_take]
    omega
  have hwne : kdjWindow bars 9 i ≠ [] := by
    intro hnil
    rw [hnil] at hwlen
    exact absurd hwlen (by norm_num)
  have hmapne : ∀ f : Bar → ℚ, (kdjWindow bars 9 i).map f ≠ [] := by
    intro f hnil
    exact hwne (List.map_eq_nil_iff.mp hnil)
  refine ⟨⟨listMax ((kdjWindow bars 9 i).map Bar.high),
      listMin ((kdjWindow bars 9 i).map Bar.low),
      listMax_mem _ (hmapne Bar.high),
      fun x hx => le_listMax _ x hx,
      listMin_mem _ (hmapne Bar.low),
      fun x hx => listMin_le _ x hx, ?_⟩, ?_, ?_⟩
  · simp [rsvIdx, hb, hnot]
  · intro hi8
    subst hi8
    have hnone : ∀ l, l < 8 → rsvIdx 9 bars l = none := by
      intro l hl
      cases hbl : bars[l]? with
      | none => simp [rsvIdx, hbl]
      | some bl => simp [rsvIdx, hbl, show l + 1 < 9 by omega]
    have hv : rsvIdx 9 bars 8 =
        some (100 * (b.close - listMin ((kdjWindow bars 9 8).map Bar.low)) /
          (listMax ((kdjWindow bars 9 8).map Bar.high) -
            listMin ((kdjWindow bars 9 8).map Bar.low))) := by
      simp [rsvIdx, hb, hnot]
    rw [kIdx, ewmIdx_seed _ _ 8 _ hnone hv, hv]
  · intro r p h9 hr hp
    obtain ⟨m, rfl⟩ : ∃ m, i = m + 1 := ⟨i - 1, by omega⟩
    have hm : m + 1 - 1 = m := rfl
    rw [hm] at hp
    rw [kIdx] at hp ⊢
    rw [ewmIdx_rec _ _ m p r hp hr]
    norm_num

theorem C8_rsv_and_k_recurrence_witness :
    wBars[9]? = some wBar ∧ 8 ≤ 9 ∧
      ((∃ hi lo,
          hi ∈ (kdjWindow wBars 9 9).map Bar.high ∧
          (∀ x ∈ (kdjWindow wBars 9 9).map Bar.high, x ≤ hi) ∧
          lo ∈ (kdjWindow wBars 9 9).map Bar.low ∧
          (∀ x ∈ (kdjWindow wBars 9 9).map Bar.low, lo ≤ x) ∧
          rsvIdx 9 wBars 9 = some (100 * (wBar.close - lo) / (hi - lo))) ∧
        (9 = 8 → kIdx 9 3 wBars 8 = rsvIdx 9 wBars 8) ∧
        (∀ r p, 9 ≤ 9 → rsvIdx 9 wBars 9 = some r →
            kIdx 9 3 wBars (9 - 1) = some p →
            kIdx 9 3 wBars 9 = some (1/3 * r + (1 - 1/3) * p))) :=
  ⟨rfl, by norm_num, C8_rsv_and_k_recurrence wBars 9 wBar rfl (by norm_num)⟩

/-! ## Claims about the screening engine -/

/-- A bar of the short-history file used below. -/
def sBar : Bar := { date := 0, op := 1, high := 2, low := 1, close := 1, volume := 1 }

/-- A symbol with only 19 bars of history: `process_stock_file` soft-fails
on it (returns `None` after logging). -/
def shortFile : StockFile :=
  { symbol := "0short"
    rows := [sBar, sBar, sBar, sBar, sBar, sBar, sBar, sBar, sBar, sBar,
             sBar, sBar, sBar, sBar, sBar, sBar, sBar, sBar, sBar] }

/-- A bar of the healthy 20-bar file: constant prices, volume `2e7`. -/
def gBar : Bar := { date := 7, op := 1, high := 2, low := 1, close := 1, volume := 20000000 }

/-- A healthy US-class symbol with 20 bars: turnover `2e7 ≥ 1e7` and
latest `j = 0 ≤ 0`, so it passes both screen tiers. -/
def goodFile : StockFile :=
  { symbol := "aa"
    rows := [gBar, gBar, gBar, gBar, gBar, gBar, gBar, gBar, gBar, gBar,
             gBar, gBar, gBar, gBar, gBar, gBar, gBar, gBar, gBar, gBar] }

/-- The `stock_info` record `process_stock_file` computes for
`goodFile`. -/
def goodInfo : StockInfo :=
  { symbol := "aa"
    latest_date := 7
    latest_close := 1
    turnover_mv5 := 20000000
    k_value := 0
    d_value := 0
    j_value := 0
    data_points := 20
    j_less_than_zero := false }

/-- Claim C1 (demonstrating the divergence): a symbol with fewer than 20
bars makes `process_stock_file` return `None` — the logged soft-fail the
spec describes — but `pick_stocks` subscripts that `None` before its
`is not None` check, so the whole batch aborts with a `TypeError` and the
results of the remaining symbols (here the healthy `goodFile`) are
lost. -/
theorem C1_short_history_aborts_batch :
    process_stock_file shortFile = none ∧
      pick_stocks [shortFile, goodFile] =
        Except.error "TypeError: NoneType object is not subscriptable" := by
  have hshort : process_stock_file shortFile = none := by
    norm_num [process_stock_file, shortFile]
  exact ⟨hshort, by rw [pick_stocks, hshort]⟩

lemma pick_stocks_ok_mem (files : List StockFile) :
    ∀ sel : List StockInfo, pick_stocks files = Except.ok sel →
    ∀ info : StockInfo,
      (info ∈ sel ↔ ∃ f ∈ files, process_stock_file f = some info ∧
        pickConds info = Except.ok true) := by
  induction files with
  | nil =>
    intro sel h info
    rw [pick_stocks] at h
    injection h with h
    subst h
    simp
  | cons f fs ih =>
    intro sel h info
    rw [pick_stocks] at h
    cases hpf : process_stock_file f with
    | none => simp [hpf] at h
    | some i0 =>
      simp only [hpf] at h
      cases hpc : pickConds i0 with
      | error e => simp [hpc] at h
      | ok cond =>
        simp only [hpc] at h
        cases hrec : pick_stocks fs with
        | error e => simp [hrec] at h
        | ok rest =>
          simp only [hrec, Except.ok.injEq] at h
          subst h
          by_cases hc : cond = true
          · rw [if_pos hc]
            subst hc
            constructor
            · intro hmem
              rcases List.mem_cons.mp hmem with rfl | hmem
              · exact ⟨f, List.mem_cons_self f fs, hpf, hpc⟩
              · obtain ⟨g, hg, hpg, hcg⟩ := ((ih rest hrec info).mp hmem)
                exact ⟨g, List.mem_cons_of_mem f hg, hpg, hcg⟩
            · rintro ⟨g, hg, hpg, hcg⟩
              rcases List.mem_cons.mp hg with rfl | hg
              · rw [hpf] at hpg
                injection hpg with hpg
                subst hpg
                exact List.mem_cons_self _ _
              · exact List.mem_cons_of_mem i0
                  ((ih rest hrec info).mpr ⟨g, hg, hpg, hcg⟩)
          · rw [if_neg hc]
            rw [ih rest hrec info]
            constructor
            · rintro ⟨g, hg, hpg, hcg⟩
              exact ⟨g, List.mem_cons_of_mem f hg, hpg, hcg⟩
            · rintro ⟨g, hg, hpg, hcg⟩
              rcases List.mem_cons.mp hg with rfl | hg
              · rw [hpf] at hpg
                injection hpg with hpg
                subst hpg
                rw [hpc] at hcg
                injection hcg with hcg
                exact absurd hcg hc
              · exact ⟨g, hg, hpg, hcg⟩

lemma pick_stocks_ok_conds (files : List StockFile) :
    ∀ sel : List StockInfo, pick_stocks files = Except.ok sel →
    ∀ f ∈ files, ∀ info : StockInfo, process_stock_file f = some info →
    ∃ c, pickConds info = Except.ok c := by
  induction files with
  | nil =>
    intro sel _ f hf
    cases hf
  | cons g gs ih =>
    intro sel h f hf info hp
    rw [pick_stocks] at h
    cases hpg : process_stock_file g with
    | none => simp [hpg] at h
    | some j0 =>
      simp only [hpg] at h
      cases hpc : pickConds j0 with
      | error e => simp [hpc] at h
      | ok cond =>
        simp only [hpc] at h
        cases hrec : pick_stocks gs with
        | error e => simp [hrec] at h
        | ok rest =>
          rcases List.mem_cons.mp hf with rfl | hgs
          · rw [hp] at hpg
            injection hpg with hpg
            subst hpg
            exact ⟨cond, hpc⟩
          · exact ih rest hrec f hgs info hp

/-- Claim C5: for every successfully processed symbol, it is selected by
the screen if and only if both tiers pass — the 5-period smoothed
turnover is at least `1e8` when the symbol text begins with a digit and
at least `1e7` otherwise, and the latest `j` value is at most 8 when the
smoothed turnover is at least `1e9` and at most 0 otherwise. -/
theorem C5_two_tier_screen (files : List StockFile) (sel : List StockInfo)
    (info : StockInfo) (h : pick_stocks files = Except.ok sel) :
    info ∈ sel ↔
      ∃ f ∈ files, process_stock_file f = some info ∧
        (if (info.symbol.data.headD 'x').isDigit then (100000000 : ℚ)
          else 10000000) ≤ info.turnover_mv5 ∧
        info.j_value ≤
          (if (1000000000 : ℚ) ≤ info.turnover_mv5 then 8 else 0) := by
  rw [pick_stocks_ok_mem files sel h info]
  constructor
  · rintro ⟨f, hf, hp, hc⟩
    refine ⟨f, hf, hp, ?_⟩
    cases hsym : info.symbol.data with
    | nil => rw [pickConds, hsym] at hc; cases hc
    | cons c rest =>
      rw [pickConds, hsym] at hc
      injection hc with hc
      rw [Bool.and_eq_true, decide_eq_true_eq, decide_eq_true_eq] at hc
      simpa only [List.headD] using hc
  · rintro ⟨f, hf, hp, hcond1, hcond2⟩
    refine ⟨f, hf, hp, ?_⟩
    obtain ⟨cc, hcc⟩ := pick_stocks_ok_conds files sel h f hf info hp
    cases hsym : info.symbol.data with
    | nil => rw [pickConds, hsym] at hcc; cases hcc
    | cons c rest =>
      rw [hsym] at hcond1
      simp only [List.headD] at hcond1
      simp only [pickConds, hsym, Except.ok.injEq, Bool.and_eq_true,
        decide_eq_true_eq]
      exact ⟨hcond1, hcond2⟩

lemma goodRun : pick_stocks [goodFile] = Except.ok [goodInfo] := by
  have hk : kIdx 9 3 goodFile.rows 19 = some 0 := by
    norm_num [kIdx, ewmIdx, rsvIdx, kdjWindow, goodFile, gBar, listMax, listMin]
  have hd : dIdx 9 3 goodFile.rows 19 = some 0 := by
    norm_num [dIdx, kIdx, ewmIdx, rsvIdx, kdjWindow, goodFile, gBar, listMax,
      listMin]
  have hj : jIdx 9 3 goodFile.rows 19 = some 0 := by
    norm_num [jIdx, hk, hd]
  have hlast : goodFile.rows.getLast? = some gBar := by norm_num [goodFile]
  have htv : turnoverMv5 (goodFile.rows.map Bar.volume) = some 20000000 := by
    norm_num [goodFile, gBar, turnoverMv5, ewmSpanLast]
  have hproc : process_stock_file goodFile = some goodInfo := by
    rw [process_stock_file, if_neg (by norm_num [goodFile])]
    rw [show goodFile.rows.length - 1 = 19 from by norm_num [goodFile]]
    rw [hk, hd, hj, hlast, htv]
    norm_num [goodInfo, gBar, round3, ratFloor, Int.fdiv,
      show goodFile.symbol = "aa" from rfl,
      show goodFile.rows.length = 20 from by norm_num [goodFile]]
  have hdigit : ('a').isDigit = false := by decide
  have hconds : pickConds goodInfo = Except.ok true := by
    rw [pickConds]
    simp only [goodInfo, show ("aa").data = ['a', 'a'] from rfl, hdigit]
    norm_num
  rw [pick_stocks]
  simp [hproc, hconds, pick_stocks]

theorem C5_two_tier_screen_witness :
    pick_stocks [goodFile] = Except.ok [goodInfo] ∧
      (goodInfo ∈ [goodInfo] ↔
        ∃ f ∈ [goodFile], process_stock_file f = some goodInfo ∧
          (if (goodInfo.symbol.data.headD 'x').isDigit then (100000000 : ℚ)
            else 10000000) ≤ goodInfo.turnover_mv5 ∧
          goodInfo.j_value ≤
            (if (1000000000 : ℚ) ≤ goodInfo.turnover_mv5 then 8 else 0)) :=
  ⟨goodRun, C5_two_tier_screen [goodFile] [goodInfo] goodInfo goodRun⟩

/-! ## Claims about the output ordering -/

/-- Two selected rows with equal `j_value` and symbols in descending
name order, exercising the tie behaviour of `save_results`. -/
def tieB : StockInfo :=
  { symbol := "b"
    latest_date := 1
    latest_close := 1
    turnover_mv5 := 1000000000
    k_value := 1
    d_value := 1
    j_value := 1
    data_points := 20
    j_less_than_zero := false }

def tieA : StockInfo := { tieB with symbol := "a", latest_date := 2 }

lemma save_tie_eval : save_results [tieB, tieA] = some [tieB, tieA] := by
  have hle : jLe tieB tieA := le_refl _
  rw [save_results, if_neg (by simp)]
  simp [List.insertionSort, List.orderedInsert, if_pos hle]

/-- Claim C9 is false as stated: `save_results` sorts only by ascending
`j_value` and breaks no tie by symbol name.  On the two equal-`j` rows
`tieB` (symbol `b`) and `tieA` (symbol `a`), the saved sequence keeps
`b` before `a`, while a symbol-name tie-break would put `a` first. -/
theorem C9_counterexample_tie_order :
    save_results [tieB, tieA] = some [tieB, tieA] ∧
      tieB.j_value = tieA.j_value ∧
      tieA.symbol = "a" ∧ tieB.symbol = "b" ∧
      save_results [tieB, tieA] ≠ some [tieA, tieB] := by
  refine ⟨save_tie_eval, rfl, rfl, rfl, ?_⟩
  rw [save_tie_eval]
  intro h
  injection h with h
  have hBA : tieB = tieA := by
    have := congrArg (fun l => l.headD tieB) h
    simpa using this
  have := congrArg StockInfo.symbol hBA
  simp only [tieB, tieA] at this
  exact absurd this (by decide)

/-- Claim C9 as amended: for a non-empty selection the saved result
sequence is a permutation of the selected rows ordered by ascending
`j_value`; ties are left in the sorting order of the data-frame sort
(not broken by symbol name). -/
theorem C9_sorted_by_ascending_j (selected out : List StockInfo)
    (h : save_results selected = some out) :
    List.Sorted jLe out ∧ out.Perm selected := by
  rw [save_results] at h
  by_cases hsel : selected = []
  · rw [if_pos hsel] at h; cases h
  · rw [if_neg hsel] at h
    injection h with h
    subst h
    exact ⟨List.sorted_insertionSort jLe selected,
      List.perm_insertionSort jLe selected⟩

theorem C9_sorted_by_ascending_j_witness :
    save_results [tieB, tieA] = some [tieB, tieA] ∧
      (List.Sorted jLe [tieB, tieA] ∧
        ([tieB, tieA] : List StockInfo).Perm [tieB, tieA]) :=
  ⟨save_tie_eval, C9_sorted_by_ascending_j [tieB, tieA] [tieB, tieA] save_tie_eval⟩
